import Mathlib

/-!
Verification development for the FFIEC bulk-extraction pipeline
(`extractor.py`, `uploader.py`, `pipeline.py`).

The Python sources are shallowly embedded below.  HTML pages are modelled
at the level the code reads them through BeautifulSoup: a page is a list
of `<select>` elements (each a list of options with rendered text and a
`value` attribute), a list of `<input>` elements, and a list of `<label>`
elements.  Python dicts used as POST payloads are modelled as partial maps
`String → Option PyVal` where a dict value (`PyVal`) is `Option String`
(an attribute value may be Python `None`).  Fallible Python code (raising
`RuntimeError`) is embedded as `Except FormError` / `Option`.

Core `String` operations (`strip`, `split`, `int`, `replace`, `lower`)
are re-implemented over `List Char` so that every definition evaluates
inside the kernel; each mirrors the Python builtin used by the source.
-/

namespace FFIEC

/-! ## Python string primitives -/

/-- Characters stripped by Python `str.strip()` with no argument. -/
def isPySpace (c : Char) : Bool :=
  c = ' ' || c = '\t' || c = '\n' || c = '\x0b' || c = '\x0c' || c = '\r'

def stripChars (l : List Char) : List Char :=
  ((l.dropWhile isPySpace).reverse.dropWhile isPySpace).reverse

/-- Python `s.strip()`. -/
def pyStrip (s : String) : String := String.mk (stripChars s.data)

def splitSlashChars : List Char → List (List Char)
  | [] => [[]]
  | c :: rest =>
    let r := splitSlashChars rest
    if c = '/' then [] :: r
    else
      match r with
      | h :: t => (c :: h) :: t
      | [] => [[c]]

/-- Python `s.split("/")`. -/
def pySplitSlash (s : String) : List String := (splitSlashChars s.data).map String.mk

def digitsVal (l : List Char) : Nat := l.foldl (fun a c => a * 10 + (c.toNat - 48)) 0

/-- Python `int(s)` for the strings this code feeds it (date components).
Succeeds exactly on nonempty all-digit strings; Python's `int` also
accepts surrounding whitespace and a sign, which never arise here. -/
def pyInt (s : String) : Option Nat :=
  if !s.data.isEmpty && s.data.all Char.isDigit then some (digitsVal s.data) else none

/-- Decimal rendering of a `Nat`, used for Python `f"{int(m)}"`. -/
def natStr (n : Nat) : String := String.mk (Nat.toDigits 10 n)

/-- Python substring test `pat in s`. -/
def strContains (s pat : String) : Bool := decide (List.IsInfix pat.data s.data)

/-- Python `s.lower()` (ASCII). -/
def pyLower (s : String) : String := String.mk (s.data.map Char.toLower)

/-- Python `s.count("/")`. -/
def countSlash (s : String) : Nat := s.data.count '/'

/-- `quarter.replace("/", "-")` — the filesystem slug of a period. -/
def qslug (s : String) : String :=
  String.mk (s.data.map (fun c => if c = '/' then '-' else c))

/-- Python truthiness of an optional string attribute (`if not x`). -/
def pyTruthy : Option String → Bool
  | none => false
  | some s => !s.isEmpty

/-! ## Parsed-page data model (the BeautifulSoup view the code consumes) -/

/-- An `<option>` inside a `<select>`: its rendered text
(`get_text(" ", strip=True)`) and its `value` attribute (may be absent). -/
structure OptionEl where
  text : String
  value : Option String
deriving DecidableEq

/-- A `<select>` element: its `name` attribute and its options in
document order. -/
structure SelectEl where
  name : Option String
  options : List OptionEl
deriving DecidableEq

/-- An `<input>` element: `type`/`name`/`value`/`id` attributes and the
rendered text of its parent node (used by the radio finder). -/
structure InputEl where
  typ : String
  name : Option String
  value : Option String
  id : Option String
  parentText : String
deriving DecidableEq

/-- A `<label>` element: its `for` attribute and rendered text. -/
structure LabelEl where
  forId : Option String
  text : String
deriving DecidableEq

/-- A parsed page: selects, inputs and labels in document order. -/
structure Page where
  selects : List SelectEl
  inputs : List InputEl
  labels : List LabelEl
deriving DecidableEq

/-- A Python dict value: a string or `None`. -/
def PyVal := Option String
deriving DecidableEq

/-- A Python dict with string keys: `none` means the key is absent. -/
def Dict := String → Option PyVal

/-- Dict assignment `d[k] = v`. -/
def dset (d : Dict) (k : String) (v : PyVal) : Dict :=
  fun x => if x = k then some v else d x

/-- Dict `d.setdefault(k, v)`. -/
def dsetdefault (d : Dict) (k : String) (v : PyVal) : Dict :=
  if (d k).isNone then dset d k v else d

/-- The empty dict. -/
def demp : Dict := fun _ => none

/-! ## ASP.NET form helpers (`extractor.py` lines 41-123) -/

/-- Typed rendering of the distinct `RuntimeError` raise sites of the
form helpers; the spec's taxonomy calls the first three `ControlNotFound`
variants. -/
inductive FormError where
  | controlNotFound (target : String) (sample : List String)
  | selectNotFound (name : String)
  | periodNotMatched (target : String) (sample : List String)
  | noPeriodDropdown
  | radioNotFound
  | downloadButtonNotFound
deriving DecidableEq

deriving instance DecidableEq for Except

/-- `soup.find("input", {"name": n})`: first input whose name attribute
equals `n`. -/
def findInputByName (inputs : List InputEl) (n : String) : Option InputEl :=
  inputs.find? (fun i => i.name = some n)

/-- The hidden-field names `_hidden_inputs` collects. -/
def hiddenNames : List String :=
  ["__VIEWSTATE", "__VIEWSTATEGENERATOR", "__EVENTVALIDATION",
   "__EVENTTARGET", "__EVENTARGUMENT", "__LASTFOCUS"]

/-- `_hidden_inputs(soup)`: collect each named hidden field whose element
exists and has a non-`None` value, then default the three postback fields
to the empty string. -/
def hiddenInputs (soup : Page) : Dict :=
  let step : Dict → String → Dict := fun d n =>
    match findInputByName soup.inputs n with
    | some el =>
      match el.value with
      | some v => dset d n (some v)
      | none => d
    | none => d
  let d := hiddenNames.foldl step demp
  dsetdefault (dsetdefault (dsetdefault d "__EVENTTARGET" (some ""))
    "__EVENTARGUMENT" (some "")) "__LASTFOCUS" (some "")

/-- `_find_select_by_option_contains(soup, t)`: name of the first
truthy-named select one of whose option texts contains `t`. -/
def findSelectByOptionContains : List SelectEl → String → Except FormError String
  | [], t => .error (.controlNotFound t [])
  | sel :: rest, t =>
    match sel.name with
    | some n =>
      if !n.isEmpty then
        if sel.options.any (fun o => strContains o.text t) then .ok n
        else findSelectByOptionContains rest t
      else findSelectByOptionContains rest t
    | none => findSelectByOptionContains rest t

/-- `soup.find("select", {"name": n})`. -/
def findSelectByName (selects : List SelectEl) (n : String) : Option SelectEl :=
  selects.find? (fun sel => sel.name = some n)

/-- `_option_value_by_visible_text`: value of the option of select
`selName` whose rendered text equals `visibleText` exactly; on failure
reports the first 20 option texts. -/
def optionValueByVisibleText (soup : Page) (selName visibleText : String) :
    Except FormError PyVal :=
  match findSelectByName soup.selects selName with
  | none => .error (.selectNotFound selName)
  | some sel =>
    match sel.options.find? (fun o => o.text = visibleText) with
    | some o => .ok o.value
    | none =>
      .error (.controlNotFound visibleText ((sel.options.map (·.text)).take 20))

/-- The `norm` helper of `_option_value_match_period`, decomposed:
split the stripped label on `/`; on a three-part split with numeric
month and day, return those numbers and the raw year part. -/
def datePartsOf (s : String) : Option (Nat × Nat × String) :=
  match pySplitSlash s with
  | [m, d, y] =>
    match pyInt m, pyInt d with
    | some mi, some di => some (mi, di, y)
    | _, _ => none
  | _ => none

/-- `norm(s)` inside `_option_value_match_period`: re-render a
`M/D/YYYY` label with unpadded numeric month and day, else return the
stripped input unchanged. -/
def normPeriod (s : String) : String :=
  match datePartsOf (pyStrip s) with
  | some (mi, di, y) => natStr mi ++ "/" ++ natStr di ++ "/" ++ y
  | none => pyStrip s

/-- `_option_value_match_period(soup, selName, periodText)`: first option
whose text equals the stripped target or normalizes to the same date;
returns the option's text and value. -/
def optionValueMatchPeriod (soup : Page) (selName periodText : String) :
    Except FormError (String × PyVal) :=
  match findSelectByName soup.selects selName with
  | none => .error (.selectNotFound selName)
  | some sel =>
    let stripped := pyStrip periodText
    let targetNorm := normPeriod stripped
    match sel.options.find?
        (fun o => o.text = stripped || normPeriod o.text = targetNorm) with
    | some o => .ok (o.text, o.value)
    | none =>
      .error (.periodNotMatched periodText ((sel.options.map (·.text)).take 30))

/-- First pass of `_find_tab_delimited_radio`: a radio input with truthy
name, present value, and "Tab Delimited" in its parent's text. -/
def radioPass1 : List InputEl → Option (String × String)
  | [] => none
  | i :: rest =>
    if i.typ = "radio" then
      match i.name, i.value with
      | some n, some v =>
        if !n.isEmpty && strContains i.parentText "Tab Delimited" then some (n, v)
        else radioPass1 rest
      | _, _ => radioPass1 rest
    else radioPass1 rest

/-- `soup.find("label", {"for": rid})`. -/
def findLabelFor (labels : List LabelEl) (rid : String) : Option LabelEl :=
  labels.find? (fun l => l.forId = some rid)

/-- Second pass of `_find_tab_delimited_radio`: a radio input with truthy
id and name, present value, whose associated `label[for]` contains
"Tab Delimited". -/
def radioPass2 (labels : List LabelEl) : List InputEl → Option (String × String)
  | [] => none
  | i :: rest =>
    if i.typ = "radio" then
      match i.id, i.name, i.value with
      | some rid, some n, some v =>
        if !rid.isEmpty && !n.isEmpty then
          match findLabelFor labels rid with
          | some lab =>
            if strContains lab.text "Tab Delimited" then some (n, v)
            else radioPass2 labels rest
          | none => radioPass2 labels rest
        else radioPass2 labels rest
      | _, _, _ => radioPass2 labels rest
    else radioPass2 labels rest

/-- `_find_tab_delimited_radio(soup)`. -/
def findTabDelimitedRadio (soup : Page) : Except FormError (String × String) :=
  match radioPass1 soup.inputs with
  | some r => .ok r
  | none =>
    match radioPass2 soup.labels soup.inputs with
    | some r => .ok r
    | none => .error .radioNotFound

/-- First pass of `_find_download_submit`: a submit input whose stripped,
lowercased value is "download" and whose name is truthy. -/
def downloadPass1 : List InputEl → Option (String × String)
  | [] => none
  | i :: rest =>
    if i.typ = "submit" then
      if pyLower (pyStrip (i.value.getD "")) = "download" && pyTruthy i.name then
        match i.name with
        | some n => some (n, i.value.getD "Download")
        | none => downloadPass1 rest
      else downloadPass1 rest
    else downloadPass1 rest

/-- `_find_download_submit(soup)`: the pass above, else the first submit
input if it has a truthy name. -/
def findDownloadSubmit (soup : Page) : Except FormError (String × String) :=
  match downloadPass1 soup.inputs with
  | some r => .ok r
  | none =>
    match soup.inputs.find? (fun i => i.typ = "submit") with
    | some btn =>
      match btn.name with
      | some n =>
        if !n.isEmpty then .ok (n, btn.value.getD "Download")
        else .error .downloadButtonNotFound
      | none => .error .downloadButtonNotFound
    | none => .error .downloadButtonNotFound

/-- The POST body built by `_postback_select_product` (lines 113-117):
the page's hidden-state map, the chosen product value, the postback
target set to the product select's name, the postback argument cleared. -/
def postbackSelectProductPayload (soup : Page) (productSelectName : String)
    (productVal : PyVal) : Dict :=
  let payload := dset (hiddenInputs soup) productSelectName productVal
  let payload := dset payload "__EVENTTARGET" (some productSelectName)
  dset payload "__EVENTARGUMENT" (some "")

/-! ## Period discovery (`get_available_quarters`, lines 128-154) -/

/-- An option text "looks like a date" for the discovery scan:
`o.count("/") == 2 and o.strip()`. -/
def dateLike (o : String) : Bool := countSlash o = 2 && !(pyStrip o).isEmpty

/-- The post-postback scan of `get_available_quarters` (lines 144-154):
for the first truthy-named select whose option texts include at least one
date-looking one, return those date-looking texts truncated to
`maxQuarters`; `none` embeds the final `RuntimeError`. -/
def availableQuartersFromPage : List SelectEl → Nat → Option (List String)
  | [], _ => none
  | sel :: rest, maxQuarters =>
    match sel.name with
    | some n =>
      if !n.isEmpty then
        let opts := sel.options.map (·.text)
        let dateOpts := opts.filter dateLike
        if !dateOpts.isEmpty then some (dateOpts.take maxQuarters)
        else availableQuartersFromPage rest maxQuarters
      else availableQuartersFromPage rest maxQuarters
    | none => availableQuartersFromPage rest maxQuarters

/-- The same scan as the spec words it: "take that control's full option
list ... and truncate to limit" — the first matching select's complete
option-text list truncated, not just its date-looking options.  Stated
for comparison with `availableQuartersFromPage`. -/
def availableQuartersSpecReading : List SelectEl → Nat → Option (List String)
  | [], _ => none
  | sel :: rest, maxQuarters =>
    match sel.name with
    | some n =>
      if !n.isEmpty then
        let opts := sel.options.map (·.text)
        if opts.any dateLike then some (opts.take maxQuarters)
        else availableQuartersSpecReading rest maxQuarters
      else availableQuartersSpecReading rest maxQuarters
    | none => availableQuartersSpecReading rest maxQuarters

/-! ## Bulk fetch request construction
(`download_bulk_call_single_period`, lines 168-185) -/

/-- Lines 168-174: the first truthy-named select whose first 40 option
texts include one containing "/" is the period dropdown. -/
def findPeriodSelectName : List SelectEl → Option String
  | [] => none
  | sel :: rest =>
    match sel.name with
    | some n =>
      if !n.isEmpty then
        let opts := (sel.options.take 40).map (·.text)
        if opts.any (fun t => strContains t "/") then some n
        else findPeriodSelectName rest
      else findPeriodSelectName rest
    | none => findPeriodSelectName rest

/-- Lines 168-185: resolve the period dropdown, the requested period, the
tab-delimited radio and the download submit on the post-product page
`soup2`, then build the terminal POST body: the page's hidden-state map
overridden by the four chosen name/value pairs (the postback-target field
is *not* reassigned here). -/
def downloadPayload (soup2 : Page) (productSelectName : String)
    (productVal : PyVal) (period : String) : Except FormError Dict :=
  match findPeriodSelectName soup2.selects with
  | none => .error .noPeriodDropdown
  | some periodSelectName =>
    match optionValueMatchPeriod soup2 periodSelectName period with
    | .error e => .error e
    | .ok (_chosenText, periodVal) =>
      match findTabDelimitedRadio soup2 with
      | .error e => .error e
      | .ok (formatName, formatVal) =>
        match findDownloadSubmit soup2 with
        | .error e => .error e
        | .ok (downloadName, downloadVal) =>
          let payload := dset (hiddenInputs soup2) productSelectName productVal
          let payload := dset payload periodSelectName periodVal
          let payload := dset payload formatName (some formatVal)
          .ok (dset payload downloadName (some downloadVal))

/-! ## Passthrough converter (`process_all_schedules`, lines 208-249) -/

/-- A logical table as pandas reads a TSV: column labels (unique after
`read_csv` mangling) and rows of cell values, passthrough as text. -/
structure Table where
  cols : List String
  rows : List (List String)
deriving DecidableEq

/-- Index of the first occurrence of a column label. -/
def colIndex : List String → String → Option Nat
  | [], _ => none
  | c :: rest, name =>
    if c = name then some 0
    else (colIndex rest name).map (· + 1)

/-- Pandas `df[name] = v` with a scalar: overwrite the column in place if
the label exists, else append a new column with that value in every row. -/
def setColumn (t : Table) (name v : String) : Table :=
  match colIndex t.cols name with
  | some i => { cols := t.cols, rows := t.rows.map (fun r => r.set i v) }
  | none => { cols := t.cols ++ [name], rows := t.rows.map (fun r => r ++ [v]) }

/-- `"".join(c if c.isalnum() else "_" for c in s)`. -/
def sanitizeName (s : String) : String :=
  String.mk (s.data.map (fun c => if c.isAlphanum then c else '_'))

/-- One `.txt` file of an extracted archive: its filename stem and the
outcome of `pd.read_csv` + `to_parquet` on it — `none` when pandas
raises (the file is malformed), `some t` when it reads as table `t`. -/
structure SrcFile where
  stem : String
  parse : Option Table
deriving DecidableEq

/-- The per-file body of `process_all_schedules`: on success, the output
parquet name (sanitized stem) and its contents — the source table with
the `reporting_period` column set to the quarter string. -/
def convertFile (f : SrcFile) (quarter : String) : Option (String × Table) :=
  f.parse.map (fun t => (sanitizeName f.stem, setColumn t "reporting_period" quarter))

/-- `process_all_schedules(extract_dir, quarter, out_dir)`: convert every
table file, skipping (not aborting on) files whose conversion raises;
returns the written outputs in input order. -/
def processAllSchedules (files : List SrcFile) (quarter : String) :
    List (String × Table) :=
  files.filterMap (fun f => convertFile f quarter)

/-! ## Orchestration loop (`download_and_process_new_quarters`,
lines 268-328) -/

/-- The staging area: which period slugs currently have a downloaded
zip, an extraction directory, and a parquet directory. -/
structure Disk where
  zips : List String
  extracts : List String
  parquets : List String
deriving DecidableEq

/-- Outcomes of the external effects of one run: whether the download
POST for a quarter succeeds, whether unzipping succeeds, and the `.txt`
files found in a slug's extraction directory. -/
structure OrchEnv where
  downloadOk : String → Bool
  extractOk : String → Bool
  filesAt : String → List SrcFile

/-- Lines 298-305: if the quarter's zip is absent, download it; a failed
download skips the quarter (`none`), a successful one records the zip. -/
def zipStage (env : OrchEnv) (disk : Disk) (q : String) : Option Disk :=
  if disk.zips.contains (qslug q) then some disk
  else if env.downloadOk q then some { disk with zips := qslug q :: disk.zips }
  else none

/-- Lines 307-314: if the extraction directory is absent, unzip into it;
the directory is created before extraction, so it exists afterwards even
when extraction fails.  The boolean reports whether the stage succeeded. -/
def extractStage (env : OrchEnv) (disk : Disk) (q : String) : Disk × Bool :=
  if disk.extracts.contains (qslug q) then (disk, true)
  else ({ disk with extracts := qslug q :: disk.extracts }, env.extractOk q)

/-- Lines 316-324: if the parquet directory already exists the quarter
counts as done; otherwise run the converter (which creates the directory
first) and count the quarter as done only when it wrote something. -/
def convertStage (env : OrchEnv) (disk : Disk) (q : String) : Disk × Option String :=
  if disk.parquets.contains (qslug q) then (disk, some (qslug q))
  else
    let d := { disk with parquets := qslug q :: disk.parquets }
    if (processAllSchedules (env.filesAt (qslug q)) q).isEmpty then (d, none)
    else (d, some (qslug q))

/-- The per-quarter body of the loop (lines 291-325): download, extract
and convert stages in sequence, each failure skipping to the next
quarter.  Returns the updated staging area and `some slug` iff the
quarter is appended to `newly_done`. -/
def stepQuarter (env : OrchEnv) (disk : Disk) (q : String) :
    Disk × Option String :=
  match zipStage env disk q with
  | none => (disk, none)
  | some d1 =>
    let e := extractStage env d1 q
    if e.2 then convertStage env e.1 q else (e.1, none)

/-- The loop over the new quarters, threading the staging area and
collecting `newly_done`. -/
def runQuarters (env : OrchEnv) : Disk → List String → Disk × List String
  | disk, [] => (disk, [])
  | disk, q :: rest =>
    let step := stepQuarter env disk q
    let next := runQuarters env step.1 rest
    (next.1, step.2.toList ++ next.2)

/-- Line 277-278: reverse the discovered (newest-first) quarters to
oldest-first and drop those whose slug is already processed. -/
def newQuartersList (discovered alreadyProcessed : List String) : List String :=
  discovered.reverse.filter (fun q => !(alreadyProcessed.contains (qslug q)))

/-- `download_and_process_new_quarters` given the discovery result:
returns the final staging area and the newly processed slugs. -/
def downloadAndProcessNewQuarters (env : OrchEnv) (disk : Disk)
    (discovered alreadyProcessed : List String) : Disk × List String :=
  runQuarters env disk (newQuartersList discovered alreadyProcessed)

/-! ## Uploader (`uploader.py`) and state persistence (`pipeline.py`) -/

/-- Outcome of `upload_quarter_to_storage` for one slug: it raises, or
returns the number of files uploaded. -/
inductive UploadOutcome where
  | fails
  | uploads (n : Nat)
deriving DecidableEq

/-- `upload_quarters(quarter_slugs)` (lines 64-97), instrumented: returns
the slugs whose upload was attempted (in order) and the successful slugs
(in order).  A raised upload stops the loop; a zero-file upload is
recorded as unsuccessful but does not stop it. -/
def uploadQuarters (outcome : String → UploadOutcome) :
    List String → List String × List String
  | [] => ([], [])
  | q :: rest =>
    match outcome q with
    | .fails => ([q], [])
    | .uploads n =>
      let r := uploadQuarters outcome rest
      (q :: r.1, if 0 < n then q :: r.2 else r.2)

/-- The success test `n > 0` applied to a slug's outcome. -/
def uploadSucceeded (outcome : String → UploadOutcome) (q : String) : Bool :=
  match outcome q with
  | .fails => false
  | .uploads n => 0 < n

/-- `pipeline.run` step 3: the durable state written at end of run —
`sorted(uploaded | set(newly_uploaded))`. -/
def savedQuarters (uploaded0 newlyUploaded : List String) : List String :=
  (uploaded0.toFinset ∪ newlyUploaded.toFinset).sort (fun a b => a ≤ b)

/-! ## Theorems -/

/-- C3: for every page and select, two period labels with no surrounding
whitespace that differ only in zero-padding of their numeric month and
day components (equal `datePartsOf`, e.g. "3/31/2024" vs "03/31/2024")
are resolved by `_option_value_match_period` to the same offered option
(identical successful results; both fail when no option matches). -/
theorem period_match_tolerates_zero_padding (soup : Page) (selName t1 t2 : String)
    (h1 : pyStrip t1 = t1) (h2 : pyStrip t2 = t2)
    (hs : (datePartsOf t1).isSome = true)
    (heq : datePartsOf t1 = datePartsOf t2) :
    (optionValueMatchPeriod soup selName t1).toOption =
      (optionValueMatchPeriod soup selName t2).toOption := by
  obtain ⟨⟨mi, di, y⟩, hp1⟩ := Option.isSome_iff_exists.mp hs
  have hp2 : datePartsOf t2 = some (mi, di, y) := heq ▸ hp1
  have hN1 : normPeriod t1 = natStr mi ++ "/" ++ natStr di ++ "/" ++ y := by
    unfold normPeriod; rw [h1, hp1]
  have hN2 : normPeriod t2 = natStr mi ++ "/" ++ natStr di ++ "/" ++ y := by
    unfold normPeriod; rw [h2, hp2]
  simp only [optionValueMatchPeriod]
  cases hfind : findSelectByName soup.selects selName with
  | none => rfl
  | some sel =>
    simp only [h1, h2, hN1, hN2]
    have hpred :
        (fun o : OptionEl => decide (o.text = t1) ||
            decide (normPeriod o.text = natStr mi ++ "/" ++ natStr di ++ "/" ++ y))
          = (fun o : OptionEl => decide (o.text = t2) ||
              decide (normPeriod o.text = natStr mi ++ "/" ++ natStr di ++ "/" ++ y)) := by
      funext o
      by_cases hc1 : o.text = t1
      · by_cases hc2 : o.text = t2
        · simp [hc1, hc2]
          exact Or.inr hN1
        · simp [hc1, hc2]
          exact Or.inr hN1
      · by_cases hc2 : o.text = t2
        · simp [hc1, hc2]
          exact Or.inr hN2
        · simp [hc1, hc2]
    rw [hpred]
    cases sel.options.find? (fun o : OptionEl => decide (o.text = t2) ||
        decide (normPeriod o.text = natStr mi ++ "/" ++ natStr di ++ "/" ++ y)) with
    | none => rfl
    | some o => rfl

/-- Concrete page for the zero-padding witness. -/
def c3Page : Page :=
  ⟨[⟨some "per", [⟨"12/31/2024", some "v0"⟩, ⟨"03/31/2024", some "v1"⟩]⟩], [], []⟩

/-- C3 witness: "3/31/2024" and "03/31/2024" satisfy the hypotheses and
resolve identically on a concrete page. -/
theorem period_match_tolerates_zero_padding_witness :
    pyStrip "3/31/2024" = "3/31/2024"
    ∧ (datePartsOf "3/31/2024").isSome = true
    ∧ datePartsOf "3/31/2024" = datePartsOf "03/31/2024"
    ∧ (optionValueMatchPeriod c3Page "per" "3/31/2024").toOption =
        (optionValueMatchPeriod c3Page "per" "03/31/2024").toOption :=
  ⟨by decide, by decide, by decide,
    period_match_tolerates_zero_padding c3Page "per" "3/31/2024" "03/31/2024"
      (by decide) (by decide) (by decide) (by decide)⟩

/-- Helper for C9: the control search fails with its dedicated error when
no truthy-named select has an option containing the target. -/
theorem findSelectByOptionContains_fails (sels : List SelectEl) (t : String)
    (hno : ∀ s ∈ sels, pyTruthy s.name = true →
      ∀ o ∈ s.options, strContains o.text t = false) :
    findSelectByOptionContains sels t = .error (.controlNotFound t []) := by
  induction sels with
  | nil => rfl
  | cons s rest ih =>
    have hrest : ∀ s' ∈ rest, pyTruthy s'.name = true →
        ∀ o ∈ s'.options, strContains o.text t = false :=
      fun s' hs' => hno s' (List.mem_cons_of_mem _ hs')
    cases hn : s.name with
    | none => simp only [findSelectByOptionContains, hn]; exact ih hrest
    | some n =>
      simp only [findSelectByOptionContains, hn]
      by_cases hne : n.isEmpty
      · simp [hne, ih hrest]
      · have htr : pyTruthy s.name = true := by simp [pyTruthy, hn, hne]
        have hany : s.options.any (fun o => strContains o.text t) = false := by
          rw [List.any_eq_false]
          intro o ho
          simp [hno s (List.mem_cons_self _ _) htr o ho]
        simp [hne, hany, ih hrest]

/-- C9: (a) when no truthy-named select on the page has an option whose
text contains the target, the control search fails with exactly the
control-not-found error for that target; (b) when the named select exists
but offers no option with the exact visible label, label resolution fails
with exactly the control-not-found error carrying the first 20 offered
labels as a diagnostic sample.  No other error is produced. -/
theorem control_search_fails_with_control_not_found (soup : Page)
    (t selName visibleText : String) (sel : SelectEl)
    (hno : ∀ s ∈ soup.selects, pyTruthy s.name = true →
      ∀ o ∈ s.options, strContains o.text t = false)
    (hsel : findSelectByName soup.selects selName = some sel)
    (hlab : ∀ o ∈ sel.options, o.text ≠ visibleText) :
    findSelectByOptionContains soup.selects t = .error (.controlNotFound t [])
    ∧ optionValueByVisibleText soup selName visibleText =
        .error (.controlNotFound visibleText ((sel.options.map (·.text)).take 20)) := by
  refine ⟨findSelectByOptionContains_fails soup.selects t hno, ?_⟩
  have hfind : sel.options.find? (fun o => decide (o.text = visibleText)) = none := by
    rw [List.find?_eq_none]
    intro o ho
    simp [hlab o ho]
  simp only [optionValueByVisibleText, hsel, hfind]

/-- Concrete page for the C9 witness. -/
def c9Page : Page := ⟨[⟨some "s", [⟨"alpha", some "a"⟩]⟩], [], []⟩

/-- C9 witness: on a concrete page with a single select offering only
"alpha", searching for "Call Reports" and resolving label "Beta" each
fail with their control-not-found error. -/
theorem control_search_fails_with_control_not_found_witness :
    findSelectByName c9Page.selects "s" = some ⟨some "s", [⟨"alpha", some "a"⟩]⟩
    ∧ (findSelectByOptionContains c9Page.selects "Call Reports" =
          .error (.controlNotFound "Call Reports" [])
        ∧ optionValueByVisibleText c9Page "s" "Beta" =
            .error (.controlNotFound "Beta" ["alpha"])) :=
  ⟨by decide,
    control_search_fails_with_control_not_found c9Page "Call Reports" "s" "Beta"
      ⟨some "s", [⟨"alpha", some "a"⟩]⟩ (by decide) (by decide) (by decide)⟩

/-- C2 (amended): whenever the discovery scan succeeds, its result has at
most `maxQuarters` elements, consists only of date-looking option texts,
and is a sublist — in served order, no re-sorting — of the option-text
list of one of the page's selects (the scan returns the date-looking
options of the first qualifying control, not that control's full option
list). -/
theorem available_quarters_bounded_and_ordered (sels : List SelectEl)
    (maxQuarters : Nat) (l : List String)
    (h : availableQuartersFromPage sels maxQuarters = some l) :
    l.length ≤ maxQuarters
    ∧ ∃ sel ∈ sels, List.Sublist l (sel.options.map (·.text))
        ∧ ∀ o ∈ l, dateLike o = true := by
  induction sels with
  | nil => exact absurd h (by simp [availableQuartersFromPage])
  | cons sel rest ih =>
    unfold availableQuartersFromPage at h
    dsimp only at h
    split at h
    · split at h
      · split at h
        · obtain rfl := Option.some.inj h
          refine ⟨List.length_take_le _ _, sel, List.mem_cons_self _ _, ?_, ?_⟩
          · exact (List.take_sublist _ _).trans (List.filter_sublist _)
          · intro o ho
            exact List.of_mem_filter ((List.take_sublist _ _).subset ho)
        · obtain ⟨hlen, s, hs, hsub, hdl⟩ := ih h
          exact ⟨hlen, s, List.mem_cons_of_mem _ hs, hsub, hdl⟩
      · obtain ⟨hlen, s, hs, hsub, hdl⟩ := ih h
        exact ⟨hlen, s, List.mem_cons_of_mem _ hs, hsub, hdl⟩
    · obtain ⟨hlen, s, hs, hsub, hdl⟩ := ih h
      exact ⟨hlen, s, List.mem_cons_of_mem _ hs, hsub, hdl⟩

/-- Concrete page for the C2 counterexample: the period control's option
list mixes a placeholder with date options. -/
def c2Selects : List SelectEl :=
  [⟨some "s1", [⟨"choose a period", none⟩, ⟨"03/31/2024", some "a"⟩,
    ⟨"12/31/2023", some "b"⟩]⟩]

/-- C2 counterexample: on a control mixing a placeholder with dates, the
code returns only the date-looking options, not the control's full option
list truncated to the limit as the claim states. -/
theorem available_quarters_not_full_option_list :
    availableQuartersFromPage c2Selects 12 = some ["03/31/2024", "12/31/2023"]
    ∧ availableQuartersSpecReading c2Selects 12 =
        some ["choose a period", "03/31/2024", "12/31/2023"]
    ∧ availableQuartersFromPage c2Selects 12 ≠ availableQuartersSpecReading c2Selects 12 :=
  ⟨by decide, by decide, by decide⟩

/-- C2 witness: the amended theorem applied to the counterexample page
with limit 1. -/
theorem available_quarters_bounded_and_ordered_witness :
    availableQuartersFromPage c2Selects 1 = some ["03/31/2024"]
    ∧ (["03/31/2024"].length ≤ 1
        ∧ ∃ sel ∈ c2Selects, List.Sublist ["03/31/2024"] (sel.options.map (·.text))
            ∧ ∀ o ∈ ["03/31/2024"], dateLike o = true) :=
  ⟨by decide, available_quarters_bounded_and_ordered c2Selects 1 _ (by decide)⟩

/-- A column name absent from the header has no index. -/
theorem colIndex_eq_none (cols : List String) (name : String) (h : name ∉ cols) :
    colIndex cols name = none := by
  induction cols with
  | nil => rfl
  | cons c rest ih =>
    have hc : ¬(c = name) := fun hc => h (by rw [hc]; exact List.mem_cons_self _ _)
    rw [colIndex, if_neg hc, ih (fun hm => h (List.mem_cons_of_mem _ hm))]
    rfl

/-- C4 (amended): converting an archive directory holding exactly one
well-formed table file whose header does not already contain
`reporting_period` writes exactly one output, named by the sanitized
stem, whose columns are the source columns plus an appended
`reporting_period` column and whose rows are the source rows each
extended with the supplied period string.  (When the source already has
a `reporting_period` column, pandas overwrites it in place instead of
appending — see the counterexample.) -/
theorem convert_single_well_formed_file (f : SrcFile) (t : Table) (q : String)
    (hp : f.parse = some t) (hrp : "reporting_period" ∉ t.cols) :
    processAllSchedules [f] q =
      [(sanitizeName f.stem,
        ⟨t.cols ++ ["reporting_period"], t.rows.map (fun r => r ++ [q])⟩)]
    ∧ (processAllSchedules [f] q).length = 1
    ∧ ∀ pr ∈ processAllSchedules [f] q, pr.2.rows.length = t.rows.length := by
  have hmain : processAllSchedules [f] q =
      [(sanitizeName f.stem,
        ⟨t.cols ++ ["reporting_period"], t.rows.map (fun r => r ++ [q])⟩)] := by
    simp [processAllSchedules, convertFile, hp, setColumn, colIndex_eq_none _ _ hrp]
  refine ⟨hmain, by rw [hmain]; rfl, ?_⟩
  intro pr hpr
  rw [hmain, List.mem_singleton] at hpr
  subst hpr
  exact List.length_map _ _

/-- Concrete file for the C4 counterexample: the source already has a
`reporting_period` column. -/
def c4File : SrcFile := ⟨"s", some ⟨["a", "reporting_period"], [["1", "old"]]⟩⟩

/-- C4 counterexample: on a well-formed single-file archive whose table
already has a `reporting_period` column, the written output overwrites
that column in place — its columns are not the source columns plus an
appended `reporting_period` column, contradicting the claim as stated. -/
theorem convert_overwrites_existing_reporting_period :
    processAllSchedules [c4File] "Q" = [("s", ⟨["a", "reporting_period"], [["1", "Q"]]⟩)]
    ∧ ∀ pr ∈ processAllSchedules [c4File] "Q",
        pr.2.cols ≠ ["a", "reporting_period"] ++ ["reporting_period"] := by
  refine ⟨by decide, by decide⟩

/-- C4 witness: the amended theorem applied to a concrete two-row file. -/
theorem convert_single_well_formed_file_witness :
    processAllSchedules [⟨"FFIEC CDR Call Schedule RC",
        some ⟨["a", "b"], [["1", "2"], ["3", "4"]]⟩⟩] "03/31/2024" =
      [("FFIEC_CDR_Call_Schedule_RC",
        ⟨["a", "b", "reporting_period"],
          [["1", "2", "03/31/2024"], ["3", "4", "03/31/2024"]]⟩)]
    ∧ (processAllSchedules [⟨"FFIEC CDR Call Schedule RC",
        some ⟨["a", "b"], [["1", "2"], ["3", "4"]]⟩⟩] "03/31/2024").length = 1
    ∧ ∀ pr ∈ processAllSchedules [⟨"FFIEC CDR Call Schedule RC",
        some ⟨["a", "b"], [["1", "2"], ["3", "4"]]⟩⟩] "03/31/2024",
        pr.2.rows.length = 2 :=
  convert_single_well_formed_file
    ⟨"FFIEC CDR Call Schedule RC", some ⟨["a", "b"], [["1", "2"], ["3", "4"]]⟩⟩
    ⟨["a", "b"], [["1", "2"], ["3", "4"]]⟩ "03/31/2024" rfl (by decide)

/-- C5: converting an archive with two table files of which exactly one
is malformed yields exactly one written output — the converted
well-formed file — whichever order the two appear in; the malformed
file's failure does not abort or alter the sibling's processing. -/
theorem convert_skips_malformed_sibling (f g : SrcFile) (t : Table) (q : String)
    (hf : f.parse = none) (hg : g.parse = some t) :
    processAllSchedules [f, g] q =
      [(sanitizeName g.stem, setColumn t "reporting_period" q)]
    ∧ processAllSchedules [g, f] q =
        [(sanitizeName g.stem, setColumn t "reporting_period" q)]
    ∧ (processAllSchedules [f, g] q).length = 1 := by
  refine ⟨?_, ?_, ?_⟩ <;> simp [processAllSchedules, convertFile, hf, hg]

/-- C5 witness: a malformed file first, a well-formed file second. -/
theorem convert_skips_malformed_sibling_witness :
    processAllSchedules [⟨"bad", none⟩, ⟨"good", some ⟨["a"], [["1"]]⟩⟩] "Q" =
      [("good", setColumn ⟨["a"], [["1"]]⟩ "reporting_period" "Q")]
    ∧ processAllSchedules [⟨"good", some ⟨["a"], [["1"]]⟩⟩, ⟨"bad", none⟩] "Q" =
        [("good", setColumn ⟨["a"], [["1"]]⟩ "reporting_period" "Q")]
    ∧ (processAllSchedules [⟨"bad", none⟩, ⟨"good", some ⟨["a"], [["1"]]⟩⟩] "Q").length = 1 :=
  convert_skips_malformed_sibling ⟨"bad", none⟩ ⟨"good", some ⟨["a"], [["1"]]⟩⟩
    ⟨["a"], [["1"]]⟩ "Q" rfl rfl

/-- C1 (amended): both POST bodies carry the complete hidden-state map
of the most recently received page, overridden only by the newly chosen
control values — but only the product-selection postback sets the
postback-target field to the chosen control's identifier (and clears the
postback-argument); the terminal download submission overrides exactly
the four chosen control name/value pairs and leaves the postback-target
field as inherited from the page's hidden state. -/
theorem postback_payloads_carry_hidden_state (soup soup2 : Page)
    (productSelectName : String) (productVal : PyVal) (period : String)
    (periodSelectName chosenText : String) (periodVal : PyVal)
    (formatName formatVal downloadName downloadVal : String) (pl : Dict) (k : String)
    (h1 : findPeriodSelectName soup2.selects = some periodSelectName)
    (h2 : optionValueMatchPeriod soup2 periodSelectName period = .ok (chosenText, periodVal))
    (h3 : findTabDelimitedRadio soup2 = .ok (formatName, formatVal))
    (h4 : findDownloadSubmit soup2 = .ok (downloadName, downloadVal))
    (hpl : downloadPayload soup2 productSelectName productVal period = .ok pl) :
    (k ≠ productSelectName → k ≠ "__EVENTTARGET" → k ≠ "__EVENTARGUMENT" →
        postbackSelectProductPayload soup productSelectName productVal k
          = hiddenInputs soup k)
    ∧ postbackSelectProductPayload soup productSelectName productVal "__EVENTTARGET"
        = some (some productSelectName)
    ∧ postbackSelectProductPayload soup productSelectName productVal "__EVENTARGUMENT"
        = some (some "")
    ∧ (productSelectName ≠ "__EVENTTARGET" → productSelectName ≠ "__EVENTARGUMENT" →
        postbackSelectProductPayload soup productSelectName productVal productSelectName
          = some productVal)
    ∧ (k ≠ productSelectName → k ≠ periodSelectName → k ≠ formatName → k ≠ downloadName →
        pl k = hiddenInputs soup2 k)
    ∧ pl downloadName = some (some downloadVal)
    ∧ (formatName ≠ downloadName → pl formatName = some (some formatVal))
    ∧ (periodSelectName ≠ formatName → periodSelectName ≠ downloadName →
        pl periodSelectName = some periodVal)
    ∧ (productSelectName ≠ periodSelectName → productSelectName ≠ formatName →
        productSelectName ≠ downloadName → pl productSelectName = some productVal) := by
  have hpl' : pl = dset (dset (dset (dset (hiddenInputs soup2) productSelectName productVal)
      periodSelectName periodVal) formatName (some formatVal)) downloadName
      (some downloadVal) := by
    rw [downloadPayload, h1] at hpl
    simp only [h2, h3, h4] at hpl
    exact (Except.ok.inj hpl).symm
  subst hpl'
  refine ⟨?_, ?_, ?_, ?_, ?_, ?_, ?_, ?_, ?_⟩
  · intro hk1 hk2 hk3
    simp [postbackSelectProductPayload, dset, hk1, hk2, hk3]
  · simp [postbackSelectProductPayload, dset]
  · simp [postbackSelectProductPayload, dset]
  · intro hp1 hp2
    simp [postbackSelectProductPayload, dset, hp1, hp2]
  · intro hk1 hk2 hk3 hk4
    simp [dset, hk1, hk2, hk3, hk4]
  · simp [dset]
  · intro hfd
    simp [dset, hfd]
  · intro hp1 hp2
    simp [dset, hp1, hp2]
  · intro hp1 hp2 hp3
    simp [dset, hp1, hp2, hp3]

/-- Concrete post-product page for the C1 counterexample and witness:
one hidden field, a product select, a period select, a tab-delimited
radio and a download submit button. -/
def c1Page : Page :=
  ⟨[⟨some "prod", [⟨"Call Reports -- Single Period", some "cr"⟩]⟩,
    ⟨some "periods", [⟨"03/31/2024", some "p1"⟩]⟩],
   [⟨"hidden", some "__VIEWSTATE", some "vs", none, ""⟩,
    ⟨"radio", some "fmt", some "TSV", none, "Tab Delimited"⟩,
    ⟨"submit", some "btnDL", some "Download", none, ""⟩],
   []⟩

/-- The terminal POST body the code builds on `c1Page`. -/
def c1Payload : Dict :=
  match downloadPayload c1Page "prod" (some "cr") "3/31/2024" with
  | .ok pl => pl
  | .error _ => demp

/-- C1 counterexample: on `c1Page` the terminal download submission's
chosen submit control is "btnDL", yet the built payload's
postback-target field is the inherited empty string, not "btnDL" — the
claim's "postback-target field set to the chosen control's identifier"
fails for the download submission. -/
theorem download_payload_leaves_event_target_unset :
    findDownloadSubmit c1Page = .ok ("btnDL", "Download")
    ∧ c1Payload "__EVENTTARGET" = some (some "")
    ∧ c1Payload "__EVENTTARGET" ≠ some (some "btnDL") :=
  ⟨by decide, by decide, by decide⟩

/-- C1 witness: the amended theorem applied to `c1Page`, showing the
download payload carries the chosen submit value, preserves the hidden
viewstate, and that the product postback sets the postback-target. -/
theorem postback_payloads_carry_hidden_state_witness :
    c1Payload "btnDL" = some (some "Download")
    ∧ c1Payload "__VIEWSTATE" = hiddenInputs c1Page "__VIEWSTATE"
    ∧ postbackSelectProductPayload c1Page "prod" (some "cr") "__EVENTTARGET"
        = some (some "prod") :=
  have h := postback_payloads_carry_hidden_state c1Page c1Page "prod" (some "cr")
    "3/31/2024" "periods" "03/31/2024" (some "p1") "fmt" "TSV" "btnDL" "Download"
    c1Payload "__VIEWSTATE" rfl rfl rfl rfl rfl
  ⟨h.2.2.2.2.2.1,
    h.2.2.2.2.1 (by decide) (by decide) (by decide) (by decide),
    h.2.1⟩

/-- The zip stage never changes the recorded parquet directories. -/
theorem zipStage_parquets (env : OrchEnv) (disk : Disk) (q : String) (d1 : Disk)
    (h : zipStage env disk q = some d1) : d1.parquets = disk.parquets := by
  unfold zipStage at h
  by_cases h1 : disk.zips.contains (qslug q) = true
  · rw [if_pos h1] at h
    obtain rfl := Option.some.inj h
    rfl
  · rw [if_neg h1] at h
    by_cases h2 : env.downloadOk q = true
    · rw [if_pos h2] at h
      obtain rfl := Option.some.inj h
      rfl
    · rw [if_neg h2] at h
      cases h

/-- The extract stage never changes the recorded parquet directories. -/
theorem extractStage_parquets (env : OrchEnv) (disk : Disk) (q : String) :
    (extractStage env disk q).1.parquets = disk.parquets := by
  unfold extractStage
  by_cases h1 : disk.extracts.contains (qslug q) = true
  · rw [if_pos h1]
  · rw [if_neg h1]

/-- The convert stage reports either nothing or the quarter's slug. -/
theorem convertStage_result (env : OrchEnv) (disk : Disk) (q : String) :
    (convertStage env disk q).2 = none ∨ (convertStage env disk q).2 = some (qslug q) := by
  unfold convertStage
  by_cases h1 : disk.parquets.contains (qslug q) = true
  · rw [if_pos h1]
    exact Or.inr rfl
  · rw [if_neg h1]
    dsimp only
    by_cases h2 : (processAllSchedules (env.filesAt (qslug q)) q).isEmpty = true
    · rw [if_pos h2]
      exact Or.inl rfl
    · rw [if_neg h2]
      exact Or.inr rfl

/-- The convert stage adds at most the quarter's own slug to the
recorded parquet directories. -/
theorem convertStage_parquets (env : OrchEnv) (disk : Disk) (q s : String)
    (hs : s ∈ (convertStage env disk q).1.parquets) :
    s = qslug q ∨ s ∈ disk.parquets := by
  unfold convertStage at hs
  by_cases h1 : disk.parquets.contains (qslug q) = true
  · rw [if_pos h1] at hs
    exact Or.inr hs
  · rw [if_neg h1] at hs
    dsimp only at hs
    by_cases h2 : (processAllSchedules (env.filesAt (qslug q)) q).isEmpty = true
    · rw [if_pos h2] at hs
      exact List.mem_cons.mp hs
    · rw [if_neg h2] at hs
      exact List.mem_cons.mp hs

/-- One loop iteration reports either nothing or its own quarter's slug. -/
theorem stepQuarter_result (env : OrchEnv) (disk : Disk) (q : String) :
    (stepQuarter env disk q).2 = none ∨ (stepQuarter env disk q).2 = some (qslug q) := by
  unfold stepQuarter
  cases hz : zipStage env disk q with
  | none => exact Or.inl rfl
  | some d1 =>
    dsimp only
    by_cases he : (extractStage env d1 q).2 = true
    · rw [if_pos he]
      exact convertStage_result env _ q
    · rw [if_neg he]
      exact Or.inl rfl

/-- One loop iteration can add at most its own quarter's slug to the set
of parquet directories. -/
theorem stepQuarter_parquets (env : OrchEnv) (disk : Disk) (q s : String)
    (hs : s ∈ (stepQuarter env disk q).1.parquets) :
    s = qslug q ∨ s ∈ disk.parquets := by
  unfold stepQuarter at hs
  cases hz : zipStage env disk q with
  | none =>
    rw [hz] at hs
    exact Or.inr hs
  | some d1 =>
    rw [hz] at hs
    dsimp only at hs
    by_cases he : (extractStage env d1 q).2 = true
    · rw [if_pos he] at hs
      rcases convertStage_parquets env _ q s hs with h | h
      · exact Or.inl h
      · rw [extractStage_parquets, zipStage_parquets env disk q d1 hz] at h
        exact Or.inr h
    · rw [if_neg he] at hs
      dsimp only at hs
      rw [extractStage_parquets, zipStage_parquets env disk q d1 hz] at hs
      exact Or.inr hs

/-- When the quarter's parquet directory is absent and its conversion
writes nothing, the iteration reports the quarter as not done. -/
theorem stepQuarter_empty_conversion (env : OrchEnv) (disk : Disk) (q : String)
    (hconv : processAllSchedules (env.filesAt (qslug q)) q = [])
    (hdisk : qslug q ∉ disk.parquets) :
    (stepQuarter env disk q).2 = none := by
  unfold stepQuarter
  cases hz : zipStage env disk q with
  | none => rfl
  | some d1 =>
    dsimp only
    by_cases he : (extractStage env d1 q).2 = true
    · rw [if_pos he]
      unfold convertStage
      have hp : (extractStage env d1 q).1.parquets = disk.parquets := by
        rw [extractStage_parquets, zipStage_parquets env disk q d1 hz]
      have h1 : ¬((extractStage env d1 q).1.parquets.contains (qslug q) = true) := by
        rw [hp]
        simpa using hdisk
      rw [if_neg h1]
      dsimp only
      rw [if_pos (by rw [hconv]; rfl)]
    · rw [if_neg he]

/-- Every slug the loop reports is the slug of one of its quarters. -/
theorem runQuarters_mem_slug (env : OrchEnv) (qs : List String) (disk : Disk)
    (s : String) (hs : s ∈ (runQuarters env disk qs).2) : ∃ q ∈ qs, s = qslug q := by
  induction qs generalizing disk with
  | nil => simp [runQuarters] at hs
  | cons q rest ih =>
    rw [runQuarters] at hs
    dsimp only at hs
    rcases List.mem_append.mp hs with hm | hm
    · rcases stepQuarter_result env disk q with hr | hr <;> rw [hr] at hm <;> simp at hm
      exact ⟨q, List.mem_cons_self _ _, hm⟩
    · obtain ⟨p, hp, hps⟩ := ih _ hm
      exact ⟨p, List.mem_cons_of_mem _ hp, hps⟩

/-- A slug no quarter of the list carries is never reported. -/
theorem runQuarters_not_mem (env : OrchEnv) (sl : String) (qs : List String)
    (disk : Disk) (h : ∀ q ∈ qs, qslug q ≠ sl) :
    sl ∉ (runQuarters env disk qs).2 := by
  intro hm
  obtain ⟨q, hq, hs⟩ := runQuarters_mem_slug env qs disk sl hm
  exact h q hq hs.symm

/-- Core of C6: a quarter appearing at most once, with no slug collision,
whose parquet directory is absent and whose conversion writes nothing, is
never reported by the loop. -/
theorem runQuarters_skips_empty_conversion (env : OrchEnv) (q : String)
    (qs : List String) (disk : Disk)
    (hconv : processAllSchedules (env.filesAt (qslug q)) q = [])
    (huniq : ∀ p ∈ qs, qslug p = qslug q → p = q)
    (hcount : qs.count q ≤ 1)
    (hdisk : qslug q ∉ disk.parquets) :
    qslug q ∉ (runQuarters env disk qs).2 := by
  induction qs generalizing disk with
  | nil => simp [runQuarters]
  | cons p rest ih =>
    rw [runQuarters]
    dsimp only
    intro hmem
    rcases List.mem_append.mp hmem with hm | hm
    · by_cases hpq : p = q
      · subst hpq
        rw [stepQuarter_empty_conversion env disk p hconv hdisk] at hm
        simp at hm
      · rcases stepQuarter_result env disk p with hr | hr <;> rw [hr] at hm <;> simp at hm
        exact hpq (huniq p (List.mem_cons_self _ _) hm.symm)
    · by_cases hpq : p = q
      · subst hpq
        have hnotin : p ∉ rest := by
          rw [List.count_cons_self] at hcount
          exact List.count_eq_zero.mp (Nat.le_zero.mp (Nat.le_of_add_le_add_right hcount))
        have hrest : ∀ r ∈ rest, qslug r ≠ qslug p := by
          intro r hr heq
          exact hnotin ((huniq r (List.mem_cons_of_mem _ hr) heq) ▸ hr)
        exact runQuarters_not_mem env (qslug p) rest _ hrest hm
      · have hslug : qslug p ≠ qslug q := fun he => hpq (huniq p (List.mem_cons_self _ _) he)
        have hdisk' : qslug q ∉ (stepQuarter env disk p).1.parquets := by
          intro hin
          rcases stepQuarter_parquets env disk p _ hin with he | hin2
          · exact hslug he.symm
          · exact hdisk hin2
        have hcount' : rest.count q ≤ 1 := by
          rw [List.count_cons_of_ne (fun he => hpq he.symm)] at hcount
          exact hcount
        exact ih _ (fun r hr he => huniq r (List.mem_cons_of_mem _ hr) he) hcount' hdisk' hm

/-- C6: for every environment and on-disk state, a period whose
conversion step finds zero table files or converts zero files (and whose
parquet directory does not already exist from a previous run) is treated
as not-ready: its slug is absent from the list of processed periods the
orchestration loop returns.  (The discovered list is assumed free of
duplicate listings and slug collisions.) -/
theorem loop_excludes_empty_conversion_period (env : OrchEnv) (disk : Disk)
    (discovered processed : List String) (q : String)
    (hconv : processAllSchedules (env.filesAt (qslug q)) q = [])
    (hdisk : qslug q ∉ disk.parquets)
    (huniq : ∀ p ∈ discovered, qslug p = qslug q → p = q)
    (hnodup : discovered.Nodup) :
    qslug q ∉ (downloadAndProcessNewQuarters env disk discovered processed).2 := by
  apply runQuarters_skips_empty_conversion env q _ disk hconv
  · intro p hp he
    have hpd : p ∈ discovered :=
      List.mem_reverse.mp (List.mem_filter.mp hp).1
    exact huniq p hpd he
  · calc (newQuartersList discovered processed).count q
        ≤ discovered.reverse.count q := (List.filter_sublist _).count_le _
      _ = discovered.count q := List.count_reverse _ _
      _ ≤ 1 := List.nodup_iff_count_le_one.mp hnodup q
  · exact hdisk

/-- Concrete environment for the C6 witness: the extraction directory
for the single discovered quarter contains no table files. -/
def c6Env : OrchEnv := ⟨fun _ => true, fun _ => true, fun _ => []⟩

/-- C6 witness: with one discovered quarter whose extraction yields no
files, the loop returns no processed periods containing its slug. -/
theorem loop_excludes_empty_conversion_period_witness :
    processAllSchedules (c6Env.filesAt (qslug "03/31/2024")) "03/31/2024" = []
    ∧ qslug "03/31/2024" ∉
        (downloadAndProcessNewQuarters c6Env ⟨[], [], []⟩ ["03/31/2024"] []).2 :=
  ⟨rfl, loop_excludes_empty_conversion_period c6Env ⟨[], [], []⟩ ["03/31/2024"] []
    "03/31/2024" rfl (by decide) (by decide) (by decide)⟩

/-- One loop iteration only consults the environment at its own quarter
and slug. -/
theorem stepQuarter_congr (env env' : OrchEnv) (disk : Disk) (p : String)
    (hd : env.downloadOk p = env'.downloadOk p)
    (he : env.extractOk p = env'.extractOk p)
    (hf : env.filesAt (qslug p) = env'.filesAt (qslug p)) :
    stepQuarter env disk p = stepQuarter env' disk p := by
  unfold stepQuarter zipStage extractStage convertStage
  rw [hd, he, hf]

/-- The loop's outcome depends only on the environment at the quarters
it iterates over. -/
theorem runQuarters_congr (env env' : OrchEnv) (qs : List String) (disk : Disk)
    (h : ∀ p ∈ qs, env.downloadOk p = env'.downloadOk p
      ∧ env.extractOk p = env'.extractOk p
      ∧ env.filesAt (qslug p) = env'.filesAt (qslug p)) :
    runQuarters env disk qs = runQuarters env' disk qs := by
  induction qs generalizing disk with
  | nil => rfl
  | cons p rest ih =>
    obtain ⟨hd, he, hf⟩ := h p (List.mem_cons_self _ _)
    rw [runQuarters, runQuarters]
    rw [stepQuarter_congr env env' disk p hd he hf,
      ih _ (fun r hr => h r (List.mem_cons_of_mem _ hr))]

/-- C8: a period whose slug is in the already-processed set is excluded
from the new-quarters list, and the whole loop outcome is independent of
that period's download, extraction and conversion environment — the loop
performs none of its per-period steps. -/
theorem already_processed_period_untouched (q : String)
    (discovered processed : List String) (env env' : OrchEnv) (disk : Disk)
    (hq : qslug q ∈ processed)
    (hdl : ∀ p, p ≠ q → env.downloadOk p = env'.downloadOk p)
    (hex : ∀ p, p ≠ q → env.extractOk p = env'.extractOk p)
    (hfs : ∀ s, s ≠ qslug q → env.filesAt s = env'.filesAt s) :
    q ∉ newQuartersList discovered processed
    ∧ downloadAndProcessNewQuarters env disk discovered processed
        = downloadAndProcessNewQuarters env' disk discovered processed := by
  constructor
  · intro hmem
    have hnp : ¬(qslug q ∈ processed) := by
      have := (List.mem_filter.mp hmem).2
      simpa using this
    exact hnp hq
  · apply runQuarters_congr
    intro p hp
    have hps : qslug p ∉ processed := by
      have := (List.mem_filter.mp hp).2
      simpa using this
    have hpq : qslug p ≠ qslug q := fun heq => hps (heq ▸ hq)
    have hpne : p ≠ q := fun heq => hpq (by rw [heq])
    exact ⟨hdl p hpne, hex p hpne, hfs _ hpq⟩

/-- Concrete environments for the C8 witness, disagreeing only at the
already-processed quarter. -/
def c8Env : OrchEnv := ⟨fun _ => true, fun _ => true, fun _ => []⟩

/-- Second C8 witness environment: fails everything for the processed
quarter. -/
def c8EnvBad : OrchEnv :=
  ⟨fun p => !(p = "03/31/2024" : Bool), fun p => !(p = "03/31/2024" : Bool),
   fun s => if s = qslug "03/31/2024" then [⟨"junk", none⟩] else []⟩

/-- C8 witness: with "03/31/2024" already processed, the loop ignores it
and its environment entirely. -/
theorem already_processed_period_untouched_witness :
    qslug "03/31/2024" ∈ ["03-31-2024"]
    ∧ ("03/31/2024" ∉ newQuartersList ["06/30/2024", "03/31/2024"] ["03-31-2024"]
        ∧ downloadAndProcessNewQuarters c8Env ⟨[], [], []⟩
            ["06/30/2024", "03/31/2024"] ["03-31-2024"]
          = downloadAndProcessNewQuarters c8EnvBad ⟨[], [], []⟩
              ["06/30/2024", "03/31/2024"] ["03-31-2024"]) :=
  ⟨by decide,
    already_processed_period_untouched "03/31/2024" ["06/30/2024", "03/31/2024"]
      ["03-31-2024"] c8Env c8EnvBad ⟨[], [], []⟩ (by decide)
      (fun p hp => by simp [c8Env, c8EnvBad, hp])
      (fun p hp => by simp [c8Env, c8EnvBad, hp])
      (fun s hs => by
        simp only [c8Env, c8EnvBad]
        rw [if_neg hs])⟩

/-- The loop reports a subsequence of its quarters' slugs, in order. -/
theorem runQuarters_sublist (env : OrchEnv) (qs : List String) (disk : Disk) :
    List.Sublist (runQuarters env disk qs).2 (qs.map qslug) := by
  induction qs generalizing disk with
  | nil => simp [runQuarters]
  | cons p rest ih =>
    rw [runQuarters]
    dsimp only
    rw [List.map_cons]
    rcases stepQuarter_result env disk p with hr | hr <;> rw [hr]
    · exact List.Sublist.cons _ (ih _)
    · exact List.Sublist.cons₂ _ (ih _)

/-- The uploader attempts a prefix of its queue, in order, and succeeds
on a subsequence of it. -/
theorem uploadQuarters_order (outcome : String → UploadOutcome) (l : List String) :
    (∃ t, (uploadQuarters outcome l).1 ++ t = l)
    ∧ List.Sublist (uploadQuarters outcome l).2 l := by
  induction l with
  | nil => exact ⟨⟨[], rfl⟩, List.Sublist.refl _⟩
  | cons p rest ih =>
    rw [uploadQuarters]
    cases ho : outcome p with
    | fails => exact ⟨⟨rest, rfl⟩, List.nil_sublist _⟩
    | uploads n =>
      obtain ⟨⟨t, ht⟩, hsub⟩ := ih
      dsimp only
      refine ⟨⟨t, ?_⟩, ?_⟩
      · rw [List.cons_append, ht]
      · by_cases hn : 0 < n
        · rw [if_pos hn]
          exact List.Sublist.cons₂ _ hsub
        · rw [if_neg hn]
          exact List.Sublist.cons _ hsub

/-- C10: the slugs the orchestration loop returns follow the
oldest-to-newest order (the reverse of discovery's newest-first order):
they form a subsequence of the reversed discovered list's slugs; and the
uploader consumes that list in the same order — it attempts a prefix of
it and succeeds on a subsequence of it. -/
theorem processing_and_upload_order (env : OrchEnv) (disk : Disk)
    (discovered processed : List String) (outcome : String → UploadOutcome) :
    List.Sublist (downloadAndProcessNewQuarters env disk discovered processed).2
        (discovered.reverse.map qslug)
    ∧ List.Sublist
        (uploadQuarters outcome
          (downloadAndProcessNewQuarters env disk discovered processed).2).2
        (downloadAndProcessNewQuarters env disk discovered processed).2
    ∧ ∃ t, (uploadQuarters outcome
          (downloadAndProcessNewQuarters env disk discovered processed).2).1 ++ t
        = (downloadAndProcessNewQuarters env disk discovered processed).2 :=
  ⟨(runQuarters_sublist env _ disk).trans ((List.filter_sublist _).map _),
    (uploadQuarters_order outcome _).2,
    (uploadQuarters_order outcome _).1⟩

/-- Across a failure-free stretch of the queue, the uploader attempts
everything and keeps exactly the slugs whose upload placed files. -/
theorem uploadQuarters_no_failure_append (outcome : String → UploadOutcome)
    (l1 l2 : List String) (h : ∀ x ∈ l1, outcome x ≠ .fails) :
    uploadQuarters outcome (l1 ++ l2)
      = (l1 ++ (uploadQuarters outcome l2).1,
         l1.filter (uploadSucceeded outcome) ++ (uploadQuarters outcome l2).2) := by
  induction l1 with
  | nil => simp
  | cons x rest ih =>
    have hx := h x (List.mem_cons_self _ _)
    cases ho : outcome x with
    | fails => exact absurd ho hx
    | uploads n =>
      rw [List.cons_append, uploadQuarters, ho]
      dsimp only
      rw [ih (fun y hy => h y (List.mem_cons_of_mem _ hy))]
      rw [List.filter_cons]
      have hsucc : uploadSucceeded outcome x = decide (0 < n) := by
        unfold uploadSucceeded
        rw [ho]
      rw [hsucc]
      by_cases hn : 0 < n
      · simp [hn]
      · simp [hn]

/-- C7: when period A's upload succeeds and a later period B's upload
fails (with no failure in between), the run attempts exactly the queue up
to and including B — nothing queued after B is attempted — and the
durable state written at the end of the run records A among the uploaded
quarters and does not record B. -/
theorem upload_failure_halts_and_preserves (outcome : String → UploadOutcome)
    (uploaded0 pre mid post : List String) (A B : String) (nA : Nat)
    (hA : outcome A = .uploads nA) (hnA : 0 < nA) (hB : outcome B = .fails)
    (hpre : ∀ x ∈ pre, outcome x ≠ .fails) (hmid : ∀ x ∈ mid, outcome x ≠ .fails)
    (hB0 : B ∉ uploaded0) :
    (uploadQuarters outcome (pre ++ A :: (mid ++ B :: post))).1
        = pre ++ A :: (mid ++ [B])
    ∧ A ∈ (uploadQuarters outcome (pre ++ A :: (mid ++ B :: post))).2
    ∧ B ∉ (uploadQuarters outcome (pre ++ A :: (mid ++ B :: post))).2
    ∧ A ∈ savedQuarters uploaded0
        (uploadQuarters outcome (pre ++ A :: (mid ++ B :: post))).2
    ∧ B ∉ savedQuarters uploaded0
        (uploadQuarters outcome (pre ++ A :: (mid ++ B :: post))).2 := by
  have hl1 : ∀ x ∈ pre ++ A :: mid, outcome x ≠ .fails := by
    intro x hx
    rcases List.mem_append.mp hx with hx | hx
    · exact hpre x hx
    · rcases List.mem_cons.mp hx with rfl | hx
      · rw [hA]
        exact fun he => by cases he
      · exact hmid x hx
  have hqueue : pre ++ A :: (mid ++ B :: post) = (pre ++ A :: mid) ++ (B :: post) := by
    simp
  have hBfail : uploadQuarters outcome (B :: post) = ([B], []) := by
    rw [uploadQuarters, hB]
  have hmain := uploadQuarters_no_failure_append outcome (pre ++ A :: mid) (B :: post) hl1
  rw [hBfail] at hmain
  rw [hqueue, hmain]
  dsimp only
  have hAmem : A ∈ (pre ++ A :: mid).filter (uploadSucceeded outcome) := by
    refine List.mem_filter.mpr ⟨by simp, ?_⟩
    unfold uploadSucceeded
    rw [hA]
    exact decide_eq_true hnA
  have hBnot : B ∉ (pre ++ A :: mid).filter (uploadSucceeded outcome) := by
    intro hmem
    exact hl1 B (List.mem_filter.mp hmem).1 hB
  refine ⟨by simp, by simpa using hAmem, by simpa using hBnot, ?_, ?_⟩
  · simp only [savedQuarters, Finset.mem_sort, Finset.mem_union, List.mem_toFinset]
    right
    simpa using hAmem
  · simp only [savedQuarters, Finset.mem_sort, Finset.mem_union, List.mem_toFinset]
    rintro (hc | hc)
    · exact hB0 hc
    · exact hBnot (by simpa using hc)

/-- Concrete outcome map for the C7 witness. -/
def c7Outcome : String → UploadOutcome :=
  fun s => if s = "06-30-2024" then .fails else .uploads 1

/-- C7 witness: with queue [A, B] = ["03-31-2024", "06-30-2024"], A
succeeding and B failing, the theorem applies and yields the halt and
state facts at that concrete input. -/
theorem upload_failure_halts_and_preserves_witness :
    c7Outcome "03-31-2024" = .uploads 1
    ∧ c7Outcome "06-30-2024" = .fails
    ∧ ((uploadQuarters c7Outcome ["03-31-2024", "06-30-2024"]).1
          = ["03-31-2024", "06-30-2024"]
        ∧ "03-31-2024" ∈ (uploadQuarters c7Outcome ["03-31-2024", "06-30-2024"]).2
        ∧ "06-30-2024" ∉ (uploadQuarters c7Outcome ["03-31-2024", "06-30-2024"]).2
        ∧ "03-31-2024" ∈ savedQuarters []
            (uploadQuarters c7Outcome ["03-31-2024", "06-30-2024"]).2
        ∧ "06-30-2024" ∉ savedQuarters []
            (uploadQuarters c7Outcome ["03-31-2024", "06-30-2024"]).2) :=
  ⟨by decide, by decide,
    upload_failure_halts_and_preserves c7Outcome [] [] [] [] "03-31-2024" "06-30-2024" 1
      (by decide) (by decide) (by decide)
      (fun x hx => absurd hx (List.not_mem_nil x))
      (fun x hx => absurd hx (List.not_mem_nil x))
      (List.not_mem_nil _)⟩

end FFIEC
